import Mathlib

/-!
Verification of the `microphone_sample` repository: a single-pole low-pass
filter (`BSP/lpf/src/bsp_lpf.c`) and the DFSDM capture double-buffer
hand-off callbacks (`BSP/dfsdm/src/bsp_dfsdm.c`).

The C code computes the filter in `float32_t`; here that arithmetic is
embedded as exact rational arithmetic (`ℚ`), with the C cast
`(int16_t)output_float` embedded as truncation toward zero (`c_trunc`).
All concrete computations appearing in the claims (alpha = 0.5 impulse
response, convex combinations of small integers) are exactly representable
in float32, so the rational embedding agrees with the C semantics there.
int16 values are carried as `ℤ`.
-/

namespace MicSample

/-- C cast `(int16_t)q` of a real value to an integer: truncation toward
zero, as C's float-to-integer conversion does. -/
def c_trunc (q : ℚ) : ℤ := if 0 ≤ q then ⌊q⌋ else ⌈q⌉

/-- `simple_lowpass_filter_t` from `bsp_lpf.h`: filter state. -/
structure simple_lowpass_filter_t where
  prev_output : ℤ
  alpha : ℚ
  min_val : ℤ
  max_val : ℤ
  deriving DecidableEq, Repr

/-- `#define PI 3.14159265358979f` (CMSIS `arm_math.h`), embedded as the
decimal literal read exactly. -/
def PI : ℚ := 3.14159265358979

/-- `#define SAMPLE_RATE 48000` from `bsp_lpf.h`. -/
def SAMPLE_RATE : ℚ := 48000

/-- `#define CUTOFF_FREQ 5000` from `bsp_lpf.h`. -/
def CUTOFF_FREQ : ℚ := 5000

/-- `#define ALPHA (1.0f / (1.0f + 2.0f * PI * CUTOFF_FREQ / SAMPLE_RATE))`
from `bsp_lpf.h`. -/
def ALPHA : ℚ := 1 / (1 + 2 * PI * CUTOFF_FREQ / SAMPLE_RATE)

/-- `init_lowpass_filter` from `bsp_lpf.c`.  The C function overwrites every
field of the global `lowpass_filter`; embedded as a function from the prior
state (which it ignores) to the new state. -/
def init_lowpass_filter (_prior : simple_lowpass_filter_t) :
    simple_lowpass_filter_t :=
  { prev_output := 0
    alpha := ALPHA
    min_val := -32768
    max_val := 32767 }

/-- `filter_sample` from `bsp_lpf.c`: one exponential-moving-average step.
Returns the output together with the updated filter state (the C code
mutates the global `lowpass_filter.prev_output`). -/
def filter_sample (s : simple_lowpass_filter_t) (input : ℤ) :
    ℤ × simple_lowpass_filter_t :=
  let input_float : ℚ := (input : ℚ)
  let prev_output_float : ℚ := (s.prev_output : ℚ)
  let output_float : ℚ :=
    s.alpha * input_float + (1 - s.alpha) * prev_output_float
  let clamped_hi : ℚ :=
    if output_float > (s.max_val : ℚ) then (s.max_val : ℚ) else output_float
  let clamped : ℚ :=
    if clamped_hi < (s.min_val : ℚ) then (s.min_val : ℚ) else clamped_hi
  let output : ℤ := c_trunc clamped
  (output, { s with prev_output := output })

/-- `filter_block` from `bsp_lpf.c`: applies `filter_sample` to each element
of the input in order, threading the filter state. -/
def filter_block (s : simple_lowpass_filter_t) :
    List ℤ → List ℤ × simple_lowpass_filter_t
  | [] => ([], s)
  | x :: xs =>
    let r := filter_sample s x
    let rest := filter_block r.2 xs
    (r.1 :: rest.1, rest.2)

/-- Modelled from the spec's words for the refinement claim C2:
`process_block` is n sequential `process_sample` calls with state carried
over between calls, outputs collected in order. -/
def process_block (s : simple_lowpass_filter_t) (xs : List ℤ) :
    List ℤ × simple_lowpass_filter_t :=
  xs.foldl
    (fun acc x =>
      let r := filter_sample acc.2 x
      (acc.1 ++ [r.1], r.2))
    ([], s)

/-! ### Basic lemmas about `c_trunc` -/

theorem c_trunc_le (b : ℤ) (q : ℚ) (h : q ≤ (b : ℚ)) : c_trunc q ≤ b := by
  unfold c_trunc
  split
  · exact_mod_cast le_trans (Int.floor_le q) h
  · exact Int.ceil_le.mpr h

theorem le_c_trunc (a : ℤ) (q : ℚ) (h : (a : ℚ) ≤ q) : a ≤ c_trunc q := by
  unfold c_trunc
  split
  · exact Int.le_floor.mpr h
  · exact_mod_cast le_trans h (Int.le_ceil q)

/-! ### DFSDM capture double-buffer hand-off (`bsp_dfsdm.c`, `bsp_dfsdm.h`) -/

/-- `#define SAMPLE_FREQUENCY 8000` from `bsp_dfsdm.h`. -/
def SAMPLE_FREQUENCY : ℕ := 8000

/-- `#define BYTE_PER_SAMPLE 2` from `bsp_dfsdm.h`. -/
def BYTE_PER_SAMPLE : ℕ := 2

/-- `#define MICROPHEN_NUMBER 1` from `bsp_dfsdm.h`. -/
def MICROPHEN_NUMBER : ℕ := 1

/-- `#define FRAME_NUMBER 1` from `bsp_dfsdm.h`. -/
def FRAME_NUMBER : ℕ := 1

/-- `#define BUF_LENGTH (SAMPLE_FREQUENCY / 1000 * MICROPHEN_NUMBER * FRAME_NUMBER)`
from `bsp_dfsdm.h`. -/
def BUF_LENGTH : ℕ := SAMPLE_FREQUENCY / 1000 * MICROPHEN_NUMBER * FRAME_NUMBER

/-- The two DFSDM filter handles the callbacks compare against
(`hdfsdm1_filter0`, `hdfsdm1_filter1`): pointer identity in C, embedded as
a two-element channel-identity type. -/
inductive DFSDM_Filter : Type
  | hdfsdm1_filter0
  | hdfsdm1_filter1
  deriving DecidableEq, Repr

/-- Identities of the two capture buffers `Buf_Mic0` and `Buf_Mic1`
declared in `bsp_dfsdm.c`. -/
inductive MicBuffer : Type
  | Buf_Mic0
  | Buf_Mic1
  deriving DecidableEq, Repr

/-- `int16_t Buf_Mic0[BUF_LENGTH]` from `bsp_dfsdm.c` (zero-initialized
global array), embedded by its contents. -/
def Buf_Mic0 : List ℤ := List.replicate BUF_LENGTH 0

/-- `int16_t Buf_Mic1[BUF_LENGTH]` from `bsp_dfsdm.c` (zero-initialized
global array), embedded by its contents. -/
def Buf_Mic1 : List ℤ := List.replicate BUF_LENGTH 0

/-- One `HAL_UART_Transmit_DMA(&huart1, ptr, size)` initiation. The C
pointer argument is an offset into one of the capture buffers: `buffer`
names the buffer, `sampleOffset` is the offset in `int16_t` elements from
its start, and `size` is the HAL length argument (in bytes). -/
structure Transmit where
  buffer : MicBuffer
  sampleOffset : ℕ
  size : ℕ
  deriving DecidableEq, Repr

/-- `HAL_DFSDM_FilterRegConvHalfCpltCallback` from `bsp_dfsdm.c`: returns
the list of UART DMA transmissions the callback initiates.  The
`hdfsdm1_filter0` branch has an empty body; the `hdfsdm1_filter1` branch
transmits `BUF_LENGTH` bytes starting at `Buf_Mic1`. -/
def HAL_DFSDM_FilterRegConvHalfCpltCallback (h : DFSDM_Filter) :
    List Transmit :=
  if h = DFSDM_Filter.hdfsdm1_filter0 then []
  else if h = DFSDM_Filter.hdfsdm1_filter1 then
    [{ buffer := MicBuffer.Buf_Mic1, sampleOffset := 0, size := BUF_LENGTH }]
  else []

/-- `HAL_DFSDM_FilterRegConvCpltCallback` from `bsp_dfsdm.c`: the
`hdfsdm1_filter0` branch has an empty body; the `hdfsdm1_filter1` branch
transmits `BUF_LENGTH` bytes starting at `Buf_Mic1 + BUF_LENGTH / 2`
(int16 pointer arithmetic, so a sample offset of `BUF_LENGTH / 2`). -/
def HAL_DFSDM_FilterRegConvCpltCallback (h : DFSDM_Filter) :
    List Transmit :=
  if h = DFSDM_Filter.hdfsdm1_filter0 then []
  else if h = DFSDM_Filter.hdfsdm1_filter1 then
    [{ buffer := MicBuffer.Buf_Mic1, sampleOffset := BUF_LENGTH / 2,
       size := BUF_LENGTH }]
  else []

/-- The two kinds of regular-conversion notifications the DFSDM hardware
delivers. -/
inductive CallbackKind : Type
  | halfComplete
  | fullComplete
  deriving DecidableEq, Repr

/-- Dispatch of one hardware notification to the matching callback. -/
def dispatch_callback (k : CallbackKind) (h : DFSDM_Filter) : List Transmit :=
  match k with
  | CallbackKind.halfComplete => HAL_DFSDM_FilterRegConvHalfCpltCallback h
  | CallbackKind.fullComplete => HAL_DFSDM_FilterRegConvCpltCallback h

/-- All transmissions initiated by a sequence of hardware notifications,
in order. -/
def run_callbacks (evts : List (CallbackKind × DFSDM_Filter)) : List Transmit :=
  evts.flatMap (fun e => dispatch_callback e.1 e.2)

/-- The transmission `bsp_dfsdm.c` initiates for one notification of each
kind on channel `hdfsdm1_filter1`: the first half of `Buf_Mic1` (byte
offset 0) for half-complete, the second half (sample offset
`BUF_LENGTH / 2`) for full-complete, each `BUF_LENGTH` bytes long. -/
def expected_transmit (k : CallbackKind) : Transmit :=
  match k with
  | CallbackKind.halfComplete =>
    { buffer := MicBuffer.Buf_Mic1, sampleOffset := 0, size := BUF_LENGTH }
  | CallbackKind.fullComplete =>
    { buffer := MicBuffer.Buf_Mic1, sampleOffset := BUF_LENGTH / 2,
      size := BUF_LENGTH }

/-- Repeated `filter_sample` calls on the constant input `c`: the state
after `n` samples have been processed (so `prev_output` of the state after
`n ≥ 1` steps is the `n`-th output). -/
def iterate_const (s : simple_lowpass_filter_t) (c : ℤ) :
    ℕ → simple_lowpass_filter_t
  | 0 => s
  | n + 1 => (filter_sample (iterate_const s c n) c).2

/-! ### Helper lemmas -/

theorem filter_block_length (xs : List ℤ) (s : simple_lowpass_filter_t) :
    (filter_block s xs).1.length = xs.length := by
  induction xs generalizing s with
  | nil => rfl
  | cons x xs ih => simp [filter_block, ih]

theorem process_block_aux (xs : List ℤ) (s : simple_lowpass_filter_t)
    (acc : List ℤ) :
    xs.foldl
      (fun acc x =>
        let r := filter_sample acc.2 x
        (acc.1 ++ [r.1], r.2))
      (acc, s)
    = (acc ++ (filter_block s xs).1, (filter_block s xs).2) := by
  induction xs generalizing s acc with
  | nil => simp [filter_block]
  | cons x xs ih => simp [filter_block, ih]

theorem filter_sample_eq_of_in_range (s : simple_lowpass_filter_t) (x : ℤ)
    (h1 : ¬ (s.alpha * (x : ℚ) + (1 - s.alpha) * (s.prev_output : ℚ)
      > (s.max_val : ℚ)))
    (h2 : ¬ (s.alpha * (x : ℚ) + (1 - s.alpha) * (s.prev_output : ℚ)
      < (s.min_val : ℚ))) :
    (filter_sample s x).1
      = c_trunc (s.alpha * (x : ℚ) + (1 - s.alpha) * (s.prev_output : ℚ)) := by
  simp only [filter_sample]
  rw [if_neg h1, if_neg h2]

theorem filter_sample_step_nonneg (s : simple_lowpass_filter_t) (c : ℤ)
    (ha0 : 0 < s.alpha) (ha1 : s.alpha < 1)
    (hmin : s.min_val = -32768) (hmax : s.max_val = 32767)
    (h0 : 0 ≤ s.prev_output) (hpc : s.prev_output ≤ c) (hc : c ≤ 32767) :
    s.prev_output ≤ (filter_sample s c).1 ∧ (filter_sample s c).1 ≤ c := by
  have hpcQ : (s.prev_output : ℚ) ≤ (c : ℚ) := by exact_mod_cast hpc
  have h0Q : (0 : ℚ) ≤ (s.prev_output : ℚ) := by exact_mod_cast h0
  have hcQ : (c : ℚ) ≤ 32767 := by exact_mod_cast hc
  have hA := mul_nonneg ha0.le (sub_nonneg.mpr hpcQ)
  have hB := mul_nonneg (by linarith : (0 : ℚ) ≤ 1 - s.alpha)
    (sub_nonneg.mpr hpcQ)
  have hlow : (s.prev_output : ℚ)
      ≤ s.alpha * (c : ℚ) + (1 - s.alpha) * (s.prev_output : ℚ) := by
    nlinarith
  have hhigh : s.alpha * (c : ℚ) + (1 - s.alpha) * (s.prev_output : ℚ)
      ≤ (c : ℚ) := by
    nlinarith
  have h1 : ¬ (s.alpha * (c : ℚ) + (1 - s.alpha) * (s.prev_output : ℚ)
      > (s.max_val : ℚ)) := by
    rw [hmax]
    push_cast
    linarith
  have h2 : ¬ (s.alpha * (c : ℚ) + (1 - s.alpha) * (s.prev_output : ℚ)
      < (s.min_val : ℚ)) := by
    rw [hmin]
    push_cast
    linarith
  rw [filter_sample_eq_of_in_range s c h1 h2]
  exact ⟨le_c_trunc _ _ hlow, c_trunc_le _ _ hhigh⟩

theorem filter_sample_step_nonpos (s : simple_lowpass_filter_t) (c : ℤ)
    (ha0 : 0 < s.alpha) (ha1 : s.alpha < 1)
    (hmin : s.min_val = -32768) (hmax : s.max_val = 32767)
    (h0 : s.prev_output ≤ 0) (hcp : c ≤ s.prev_output) (hc : -32768 ≤ c) :
    (filter_sample s c).1 ≤ s.prev_output ∧ c ≤ (filter_sample s c).1 := by
  have hpcQ : (c : ℚ) ≤ (s.prev_output : ℚ) := by exact_mod_cast hcp
  have h0Q : (s.prev_output : ℚ) ≤ (0 : ℚ) := by exact_mod_cast h0
  have hcQ : (-32768 : ℚ) ≤ (c : ℚ) := by exact_mod_cast hc
  have hA := mul_nonneg ha0.le (sub_nonneg.mpr hpcQ)
  have hB := mul_nonneg (by linarith : (0 : ℚ) ≤ 1 - s.alpha)
    (sub_nonneg.mpr hpcQ)
  have hlow : (c : ℚ)
      ≤ s.alpha * (c : ℚ) + (1 - s.alpha) * (s.prev_output : ℚ) := by
    nlinarith
  have hhigh : s.alpha * (c : ℚ) + (1 - s.alpha) * (s.prev_output : ℚ)
      ≤ (s.prev_output : ℚ) := by
    nlinarith
  have h1 : ¬ (s.alpha * (c : ℚ) + (1 - s.alpha) * (s.prev_output : ℚ)
      > (s.max_val : ℚ)) := by
    rw [hmax]
    push_cast
    linarith
  have h2 : ¬ (s.alpha * (c : ℚ) + (1 - s.alpha) * (s.prev_output : ℚ)
      < (s.min_val : ℚ)) := by
    rw [hmin]
    push_cast
    linarith
  rw [filter_sample_eq_of_in_range s c h1 h2]
  exact ⟨c_trunc_le _ _ hhigh, le_c_trunc _ _ hlow⟩

theorem iterate_const_fields (s : simple_lowpass_filter_t) (c : ℤ) (n : ℕ) :
    (iterate_const s c n).alpha = s.alpha ∧
      (iterate_const s c n).min_val = s.min_val ∧
      (iterate_const s c n).max_val = s.max_val := by
  induction n with
  | zero => exact ⟨rfl, rfl, rfl⟩
  | succ n ih => exact ih

theorem iterate_const_invariant_nonneg (a : ℚ) (c : ℤ)
    (ha0 : 0 < a) (ha1 : a < 1) (hc0 : 0 ≤ c) (hc : c ≤ 32767) (n : ℕ) :
    0 ≤ (iterate_const ⟨0, a, -32768, 32767⟩ c n).prev_output ∧
      (iterate_const ⟨0, a, -32768, 32767⟩ c n).prev_output ≤ c ∧
      (iterate_const ⟨0, a, -32768, 32767⟩ c n).prev_output ≤
        (iterate_const ⟨0, a, -32768, 32767⟩ c (n + 1)).prev_output := by
  induction n with
  | zero =>
    refine ⟨le_refl 0, hc0, ?_⟩
    exact (filter_sample_step_nonneg ⟨0, a, -32768, 32767⟩ c ha0 ha1 rfl rfl
      (le_refl 0) hc0 hc).1
  | succ n ih =>
    obtain ⟨h0n, hcn, _⟩ := ih
    have hf := iterate_const_fields ⟨0, a, -32768, 32767⟩ c n
    have hstep := filter_sample_step_nonneg
      (iterate_const ⟨0, a, -32768, 32767⟩ c n) c
      (by rw [hf.1]; exact ha0) (by rw [hf.1]; exact ha1)
      hf.2.1 hf.2.2 h0n hcn hc
    refine ⟨le_trans h0n hstep.1, hstep.2, ?_⟩
    have hf1 := iterate_const_fields ⟨0, a, -32768, 32767⟩ c (n + 1)
    exact (filter_sample_step_nonneg
      (iterate_const ⟨0, a, -32768, 32767⟩ c (n + 1)) c
      (by rw [hf1.1]; exact ha0) (by rw [hf1.1]; exact ha1)
      hf1.2.1 hf1.2.2 (le_trans h0n hstep.1) hstep.2 hc).1

theorem iterate_const_invariant_nonpos (a : ℚ) (c : ℤ)
    (ha0 : 0 < a) (ha1 : a < 1) (hc0 : c ≤ 0) (hc : -32768 ≤ c) (n : ℕ) :
    (iterate_const ⟨0, a, -32768, 32767⟩ c n).prev_output ≤ 0 ∧
      c ≤ (iterate_const ⟨0, a, -32768, 32767⟩ c n).prev_output ∧
      (iterate_const ⟨0, a, -32768, 32767⟩ c (n + 1)).prev_output ≤
        (iterate_const ⟨0, a, -32768, 32767⟩ c n).prev_output := by
  induction n with
  | zero =>
    refine ⟨le_refl 0, hc0, ?_⟩
    exact (filter_sample_step_nonpos ⟨0, a, -32768, 32767⟩ c ha0 ha1 rfl rfl
      (le_refl 0) hc0 hc).1
  | succ n ih =>
    obtain ⟨h0n, hcn, _⟩ := ih
    have hf := iterate_const_fields ⟨0, a, -32768, 32767⟩ c n
    have hstep := filter_sample_step_nonpos
      (iterate_const ⟨0, a, -32768, 32767⟩ c n) c
      (by rw [hf.1]; exact ha0) (by rw [hf.1]; exact ha1)
      hf.2.1 hf.2.2 h0n hcn hc
    refine ⟨le_trans hstep.1 h0n, hstep.2, ?_⟩
    have hf1 := iterate_const_fields ⟨0, a, -32768, 32767⟩ c (n + 1)
    exact (filter_sample_step_nonpos
      (iterate_const ⟨0, a, -32768, 32767⟩ c (n + 1)) c
      (by rw [hf1.1]; exact ha0) (by rw [hf1.1]; exact ha1)
      hf1.2.1 hf1.2.2 (le_trans hstep.1 h0n) hstep.2 hc).1

/-! ### Claim theorems -/

/-- C2: for every input list and every starting filter state,
`filter_block` produces exactly the outputs of sequential `filter_sample`
calls with the state carried over (the spec-side `process_block`), ends in
the same state, and its output length equals its input length. -/
theorem filter_block_refines_process_block (s : simple_lowpass_filter_t)
    (xs : List ℤ) :
    filter_block s xs = process_block s xs ∧
      (filter_block s xs).1.length = xs.length := by
  constructor
  · rw [process_block, process_block_aux]
    simp
  · exact filter_block_length xs s

/-- C3: a sequence of N half-complete/full-complete notifications on the
mapped channel `hdfsdm1_filter1` initiates exactly N transmissions, the
half-complete ones addressed at sample offset 0 and the full-complete ones
at sample offset `BUF_LENGTH / 2` (the half-length), each `BUF_LENGTH`
bytes, i.e. exactly half of the buffer's `BUF_LENGTH * BYTE_PER_SAMPLE`
bytes. -/
theorem callbacks_filter1_transmit_each_half (ks : List CallbackKind) :
    run_callbacks (ks.map (fun k => (k, DFSDM_Filter.hdfsdm1_filter1)))
        = ks.map expected_transmit ∧
      (run_callbacks
        (ks.map (fun k => (k, DFSDM_Filter.hdfsdm1_filter1)))).length
        = ks.length ∧
      BUF_LENGTH = BUF_LENGTH * BYTE_PER_SAMPLE / 2 ∧
      BUF_LENGTH / 2 * BYTE_PER_SAMPLE = BUF_LENGTH := by
  refine ⟨?_, ?_, by decide, by decide⟩
  · induction ks with
    | nil => rfl
    | cons k ks ih =>
      cases k <;>
        simp [run_callbacks, dispatch_callback, expected_transmit,
          HAL_DFSDM_FilterRegConvHalfCpltCallback,
          HAL_DFSDM_FilterRegConvCpltCallback] at ih ⊢ <;>
        exact ih
  · induction ks with
    | nil => rfl
    | cons k ks ih =>
      cases k <;>
        simp [run_callbacks, dispatch_callback,
          HAL_DFSDM_FilterRegConvHalfCpltCallback,
          HAL_DFSDM_FilterRegConvCpltCallback] at ih ⊢ <;>
        exact ih

/-- C4: after `init_lowpass_filter`, the state has `prev_output = 0`,
`alpha = 1 / (1 + 2·PI·CUTOFF_FREQ / SAMPLE_RATE)` for the configured
cutoff (5000 Hz) and sample rate (48000 Hz), `min_val = -32768` and
`max_val = 32767` (the full int16 range). -/
theorem init_lowpass_filter_fields (prior : simple_lowpass_filter_t) :
    (init_lowpass_filter prior).prev_output = 0 ∧
      (init_lowpass_filter prior).alpha
        = 1 / (1 + 2 * PI * CUTOFF_FREQ / SAMPLE_RATE) ∧
      CUTOFF_FREQ = 5000 ∧ SAMPLE_RATE = 48000 ∧
      (init_lowpass_filter prior).min_val = -32768 ∧
      (init_lowpass_filter prior).max_val = 32767 :=
  ⟨rfl, rfl, rfl, rfl, rfl, rfl⟩

/-- C5: with `alpha = 0.5` and `previous_output = 0`, the impulse input
`[32767, 0, 0, 0]` yields outputs `[16383, 8191, 4095, 2047]` — the first
output is 16383 (the truncation of 16383.5), and each later output is the
truncation of `(1 - alpha)` times the previous one, i.e. a geometric decay
with ratio `1 - alpha` up to the int16 truncation the spec allows for. -/
theorem impulse_response_geometric :
    (filter_block ⟨0, 1/2, -32768, 32767⟩ [32767, 0, 0, 0]).1
        = [16383, 8191, 4095, 2047] ∧
      (16383 : ℤ) = c_trunc ((1 - 1/2) * 32767) ∧
      (8191 : ℤ) = c_trunc ((1 - 1/2) * 16383) ∧
      (4095 : ℤ) = c_trunc ((1 - 1/2) * 8191) ∧
      (2047 : ℤ) = c_trunc ((1 - 1/2) * 4095) := by
  refine ⟨?_, ?_, ?_, ?_, ?_⟩ <;>
    norm_num [filter_block, filter_sample, c_trunc]

/-- C7: re-initialization resets `previous_output` to 0 regardless of the
prior filter state. -/
theorem init_lowpass_filter_resets_prev_output
    (prior : simple_lowpass_filter_t) :
    (init_lowpass_filter prior).prev_output = 0 :=
  rfl

/-- C8: a half-complete or full-complete notification on the unused
channel `hdfsdm1_filter0` initiates no transmission at all (both C
branches for `hdfsdm1_filter0` have empty bodies, so nothing is written
and no buffer is touched): a silent drop. -/
theorem filter0_notifications_silently_dropped :
    HAL_DFSDM_FilterRegConvHalfCpltCallback DFSDM_Filter.hdfsdm1_filter0 = [] ∧
      HAL_DFSDM_FilterRegConvCpltCallback DFSDM_Filter.hdfsdm1_filter0 = [] ∧
      dispatch_callback CallbackKind.halfComplete
        DFSDM_Filter.hdfsdm1_filter0 = [] ∧
      dispatch_callback CallbackKind.fullComplete
        DFSDM_Filter.hdfsdm1_filter0 = [] :=
  ⟨rfl, rfl, rfl, rfl⟩

/-- C9: each capture buffer holds
`SAMPLE_FREQUENCY / 1000 * MICROPHEN_NUMBER * FRAME_NUMBER` int16 samples
(samples-per-millisecond × channel-count × frame-count), which with the
configured constants is `8000 / 1000 * 1 * 1 = 8`. -/
theorem capture_buffer_length :
    Buf_Mic0.length
        = SAMPLE_FREQUENCY / 1000 * MICROPHEN_NUMBER * FRAME_NUMBER ∧
      Buf_Mic1.length
        = SAMPLE_FREQUENCY / 1000 * MICROPHEN_NUMBER * FRAME_NUMBER ∧
      Buf_Mic0.length = 8 ∧ Buf_Mic1.length = 8 := by
  refine ⟨?_, ?_, ?_, ?_⟩ <;> simp [Buf_Mic0, Buf_Mic1] <;> rfl

/-- C10: `filter_sample` changes only the `prev_output` field, setting it
to exactly the value it returns; `filter_block` on an empty input (size 0)
writes no outputs and returns the state unchanged. -/
theorem filter_sample_mutates_only_prev_output
    (s : simple_lowpass_filter_t) (x : ℤ) :
    (filter_sample s x).2.prev_output = (filter_sample s x).1 ∧
      (filter_sample s x).2.alpha = s.alpha ∧
      (filter_sample s x).2.min_val = s.min_val ∧
      (filter_sample s x).2.max_val = s.max_val ∧
      filter_block s [] = ([], s) :=
  ⟨rfl, rfl, rfl, rfl, rfl⟩

/-- C1: whenever the state's clamp bounds are the full int16 range
(`min_val = -32768`, `max_val = 32767`, as `init_lowpass_filter` sets
them), the output of `filter_sample` lies within `[min_val, max_val]`,
for every input and every `alpha` and `prev_output`. -/
theorem filter_sample_output_in_range (s : simple_lowpass_filter_t)
    (x : ℤ) (hmin : s.min_val = -32768) (hmax : s.max_val = 32767) :
    s.min_val ≤ (filter_sample s x).1 ∧
      (filter_sample s x).1 ≤ s.max_val := by
  simp only [filter_sample]
  rw [hmin, hmax]
  constructor
  · apply le_c_trunc
    split_ifs with h1 h2 <;> push_cast at * <;> linarith
  · apply c_trunc_le
    split_ifs with h1 h2 <;> push_cast at * <;> linarith

theorem filter_sample_output_in_range_witness :
    (-32768 : ℤ) ≤ (filter_sample ⟨5, 1/2, -32768, 32767⟩ 1000).1 ∧
      (filter_sample ⟨5, 1/2, -32768, 32767⟩ 1000).1 ≤ 32767 :=
  filter_sample_output_in_range ⟨5, 1/2, -32768, 32767⟩ 1000 rfl rfl

/-- C6 as amended: for every `alpha ∈ (0,1)` and every constant int16
input `c` fed repeatedly through `filter_sample` starting from the
initialized state (`previous_output = 0`, full int16 clamp bounds), the
distance `|output_N - c|` is non-increasing in `N`.  It need not tend to
0: the int16 truncation of the state can make the sequence stall at a
fixed point away from `c` (see the counterexample). -/
theorem const_input_distance_nonincreasing (a : ℚ) (c : ℤ)
    (ha0 : 0 < a) (ha1 : a < 1) (hc1 : -32768 ≤ c) (hc2 : c ≤ 32767)
    (N : ℕ) :
    |(iterate_const ⟨0, a, -32768, 32767⟩ c (N + 1)).prev_output - c| ≤
      |(iterate_const ⟨0, a, -32768, 32767⟩ c N).prev_output - c| := by
  rcases le_total 0 c with hc0 | hc0
  · obtain ⟨h0N, hcN, hmono⟩ :=
      iterate_const_invariant_nonneg a c ha0 ha1 hc0 hc2 N
    obtain ⟨h0N1, hcN1, _⟩ :=
      iterate_const_invariant_nonneg a c ha0 ha1 hc0 hc2 (N + 1)
    rw [abs_of_nonpos (by linarith), abs_of_nonpos (by linarith)]
    linarith
  · obtain ⟨h0N, hcN, hmono⟩ :=
      iterate_const_invariant_nonpos a c ha0 ha1 hc0 hc1 N
    obtain ⟨h0N1, hcN1, _⟩ :=
      iterate_const_invariant_nonpos a c ha0 ha1 hc0 hc1 (N + 1)
    rw [abs_of_nonneg (by linarith), abs_of_nonneg (by linarith)]
    linarith

theorem const_input_distance_nonincreasing_witness :
    (0 : ℚ) < 1/2 ∧ (1 : ℚ)/2 < 1 ∧ (-32768 : ℤ) ≤ 100 ∧
      (100 : ℤ) ≤ 32767 ∧
      |(iterate_const ⟨0, 1/2, -32768, 32767⟩ 100 2).prev_output - 100| ≤
        |(iterate_const ⟨0, 1/2, -32768, 32767⟩ 100 1).prev_output - 100| :=
  ⟨by norm_num, by norm_num, by norm_num, by norm_num,
    const_input_distance_nonincreasing (1/2) 100 (by norm_num) (by norm_num)
      (by norm_num) (by norm_num) 1⟩

/-- C6 counterexample: with `alpha = 1/2 ∈ (0,1)` and the constant input
`c = 1` from the initialized state, `filter_sample` computes
`0.5·1 + 0.5·0 = 0.5`, which truncates to 0: the state is a fixed point,
so `output_N = 0` and `|output_N - c| = 1` for every `N` — the distance
never decreases below 1 and does not tend to 0, refuting the claim at
this concrete input. -/
theorem const_input_convergence_counterexample :
    (0 : ℚ) < 1/2 ∧ (1 : ℚ)/2 < 1 ∧
      filter_sample ⟨0, 1/2, -32768, 32767⟩ 1
        = (0, ⟨0, 1/2, -32768, 32767⟩) ∧
      iterate_const ⟨0, 1/2, -32768, 32767⟩ 1 5
        = ⟨0, 1/2, -32768, 32767⟩ ∧
      |(iterate_const ⟨0, 1/2, -32768, 32767⟩ 1 5).prev_output - 1|
        = 1 := by
  have hstep : filter_sample ⟨0, 1/2, -32768, 32767⟩ 1
      = (0, ⟨0, 1/2, -32768, 32767⟩) := by
    norm_num [filter_sample, c_trunc]
  have hiter : iterate_const ⟨0, 1/2, -32768, 32767⟩ 1 5
      = ⟨0, 1/2, -32768, 32767⟩ := by
    show (filter_sample (iterate_const ⟨0, 1/2, -32768, 32767⟩ 1 4) 1).2
      = ⟨0, 1/2, -32768, 32767⟩
    rw [show iterate_const ⟨0, 1/2, -32768, 32767⟩ 1 4
        = ⟨0, 1/2, -32768, 32767⟩ by
      show (filter_sample (iterate_const ⟨0, 1/2, -32768, 32767⟩ 1 3) 1).2
        = ⟨0, 1/2, -32768, 32767⟩
      rw [show iterate_const ⟨0, 1/2, -32768, 32767⟩ 1 3
          = ⟨0, 1/2, -32768, 32767⟩ by
        show (filter_sample (iterate_const ⟨0, 1/2, -32768, 32767⟩ 1 2) 1).2
          = ⟨0, 1/2, -32768, 32767⟩
        rw [show iterate_const ⟨0, 1/2, -32768, 32767⟩ 1 2
            = ⟨0, 1/2, -32768, 32767⟩ by
          show (filter_sample
            (iterate_const ⟨0, 1/2, -32768, 32767⟩ 1 1) 1).2
            = ⟨0, 1/2, -32768, 32767⟩
          rw [show iterate_const ⟨0, 1/2, -32768, 32767⟩ 1 1
              = ⟨0, 1/2, -32768, 32767⟩ by
            show (filter_sample
              (iterate_const ⟨0, 1/2, -32768, 32767⟩ 1 0) 1).2
              = ⟨0, 1/2, -32768, 32767⟩
            rw [show iterate_const ⟨0, 1/2, -32768, 32767⟩ 1 0
                = ⟨0, 1/2, -32768, 32767⟩ from rfl, hstep]]
          rw [hstep]]
        rw [hstep]]
      rw [hstep]]
    rw [hstep]
  refine ⟨by norm_num, by norm_num, hstep, hiter, ?_⟩
  rw [hiter]
  norm_num

end MicSample
